import Mathlib

/-!
# go-stations: the TODO service and its HTTP handler

A shallow embedding of `service/todo.go`, `handler/todo.go` and
`model/error.go`.

* The SQLite store behind `*sql.DB` is a value of type `DB`: the rows of the
  `todos` table plus the connection state the driver reports back
  (`sqlite3_last_insert_rowid`), the `sqlite_sequence` counter, the store
  clock and a ghost counter of the statements sent to the store so far.
* Every service method is a function `DB → ... → DB × Except GoError _`
  (explicit state passing) and keeps the `if err != nil` branches of the
  source. The modelled store refuses a statement with more placeholders than
  SQLite allows and a `Scan` without a row; it has no other failure. The
  context argument is dropped: the context is live for the whole call.
* `encoding/json` is a parameter (`JSONCodec`); `strconv.Atoi` is modelled
  for a 64-bit `int`.
-/

namespace GoStations

/-! ## Errors (`model/error.go`, `sqlite3.Error`, `errors.As`) -/

/-- The fields of a `sqlite3.Error` value that the program sets. -/
structure Sqlite3Error where
  code : Nat
  extendedCode : Nat
deriving DecidableEq, Repr

/-- Driver constant `sqlite3.ErrError` (`SQLITE_ERROR`), the code of a statement
that SQLite refuses to prepare. -/
def sqlite3ErrError : Nat := 1

/-- Bound of SQLite on the number of `?` placeholders in one statement,
`SQLITE_MAX_VARIABLE_NUMBER`: 32766 in the default build. -/
def sqliteMaxVariableNumber : Nat := 32766

/-- Driver constant `sqlite3.ErrConstraint`. -/
def sqlite3ErrConstraint : Nat := 19

/-- Driver constant `sqlite3.ErrConstraintPrimaryKey`, which is `19 | 6<<8`. -/
def sqlite3ErrConstraintPrimaryKey : Nat := 1555

/-- Driver constant `sqlite3.ErrConstraintUnique`, which is `19 | 8<<8`. -/
def sqlite3ErrConstraintUnique : Nat := 2067

/-- The struct `model.ErrNotFound` of `model/error.go`. -/
structure ErrNotFound where
  sqlite3Error : Sqlite3Error
deriving DecidableEq, Repr

/-- Dynamic values of Go's `error` interface that occur in the program:
a `*model.ErrNotFound`, a bare `sqlite3.Error` value, `sql.ErrNoRows`,
a `strconv` or `encoding/json` failure. -/
inductive GoError where
  | notFound (e : ErrNotFound)
  | sqlite3 (e : Sqlite3Error)
  | errNoRows
  | conversion (input : String)
  | encoding (msg : String)
deriving DecidableEq, Repr

deriving instance DecidableEq for Except

/-- Method `(*ErrNotFound).Unwrap`: returns the embedded `sqlite3.Error`
VALUE as an `error`. -/
def ErrNotFound.Unwrap (e : ErrNotFound) : GoError :=
  GoError.sqlite3 e.sqlite3Error

/-- The `Unwrap() error` method of an error value, when its dynamic type has
one. Only `*model.ErrNotFound` declares it; `sqlite3.Error` does not. -/
def GoError.unwrap? : GoError → Option GoError
  | .notFound e => some e.Unwrap
  | _ => none

/-- Whether the dynamic type of the error is `*model.ErrNotFound`. -/
def GoError.isErrNotFoundPtr : GoError → Bool
  | .notFound _ => true
  | _ => false

/-- Library function `errors.As(err, &notFound)` with
`notFound : *model.ErrNotFound`: walks the `Unwrap` chain and reports whether
some error in it has dynamic type `*model.ErrNotFound` (no type of the program
has an `As` method). The fuel bounds the length of the chain. -/
def errorsAsErrNotFoundAux : Nat → GoError → Bool
  | 0, err => err.isErrNotFoundPtr
  | fuel + 1, err =>
    if err.isErrNotFoundPtr then true
    else match err.unwrap? with
      | some inner => errorsAsErrNotFoundAux fuel inner
      | none => false

/-- Library function `errors.As` for the target `*model.ErrNotFound`; chains
in this program have length at most two. -/
def errorsAsErrNotFound (err : GoError) : Bool :=
  errorsAsErrNotFoundAux 2 err

/-! ## Data model -/

/-- Modelled from the spec: the struct `model.TODO` (its declaration is not
among the sources): `id`, `subject`, `description`, `created_at`,
`updated_at`. Timestamps are seconds on the store clock. -/
structure TODO where
  id : Int
  subject : String
  description : String
  createdAt : Nat
  updatedAt : Nat
deriving DecidableEq, Repr

/-- Modelled from the spec: a row of the table `todos` (the schema is not
among the sources); the columns are the ones the SQL statements name. -/
structure Row where
  id : Int
  subject : String
  description : String
  createdAt : Nat
  updatedAt : Nat
deriving DecidableEq, Repr

/-- Modelled from the spec: `model.CreateTODORequest`, the decoded body of a
POST (`CreateRequest{subject, description}`). -/
structure CreateTODORequest where
  subject : String
  description : String
deriving DecidableEq, Repr

/-- Modelled from the spec: `model.CreateTODOResponse` (`CreateResponse{todo}`). -/
structure CreateTODOResponse where
  todo : TODO
deriving DecidableEq, Repr

/-- Modelled from the spec: `model.ReadTODORequest` (`ReadRequest{prev_id, size}`). -/
structure ReadTODORequest where
  prevID : Int
  size : Int
deriving DecidableEq, Repr

/-- Modelled from the spec: `model.ReadTODOResponse`, the ordered sequence of
entities. -/
structure ReadTODOResponse where
  todos : List TODO
deriving DecidableEq, Repr

/-- Modelled from the spec: `model.UpdateTODORequest`, the decoded body of a
PUT (`UpdateRequest{id, subject, description}`). -/
structure UpdateTODORequest where
  id : Int
  subject : String
  description : String
deriving DecidableEq, Repr

/-- Modelled from the spec: `model.UpdateTODOResponse` (`UpdateResponse{todo}`). -/
structure UpdateTODOResponse where
  todo : TODO
deriving DecidableEq, Repr

/-- Modelled from the spec: `model.DeleteTODORequest`, the ids to delete. -/
structure DeleteTODORequest where
  ids : List Int
deriving DecidableEq, Repr

/-- Modelled from the spec: `model.DeleteTODOResponse`, which has no field. -/
structure DeleteTODOResponse where
deriving DecidableEq, Repr

/-- The store as seen through one `*sql.DB` connection. -/
structure DB where
  /-- rows of the table `todos` -/
  rows : List Row
  /-- largest id ever handed out (ids are never reused) -/
  seq : Int
  /-- what `sqlite3_last_insert_rowid` reports on the connection -/
  lastInsertRowid : Int
  /-- current reading of the store clock -/
  clock : Nat
  /-- ghost counter: statements sent to the store so far -/
  statements : Nat
deriving DecidableEq, Repr

/-- The driver's `sql.Result`: both values are captured when the statement
runs. -/
structure ExecResult where
  lastInsertId : Int
  rowsAffected : Int
deriving DecidableEq, Repr

/-- An empty store on a fresh connection. -/
def DB.empty : DB :=
  { rows := [], seq := 0, lastInsertRowid := 0, clock := 0, statements := 0 }

/-- The same store at a later (or any other) clock reading. -/
def DB.atClock (db : DB) (t : Nat) : DB :=
  { db with clock := t }

/-- Primary-key invariant of the table: no two rows share an id. -/
def DB.uniqueIds (db : DB) : Prop :=
  (db.rows.map Row.id).Nodup

instance (db : DB) : Decidable db.uniqueIds := by
  unfold DB.uniqueIds; infer_instance

/-- Whether a row with this id is in the table. -/
def DB.hasId (db : DB) (id : Int) : Bool :=
  db.rows.any (fun r => r.id == id)

/-! ## The store: semantics of the SQL statements of `service/todo.go` -/

/-- Modelled from the spec: the id the store assigns to the next inserted row,
larger than every id in the table and every id handed out before. -/
def DB.nextId (db : DB) : Int :=
  db.rows.foldl (fun m r => max m r.id) db.seq + 1

/-- Modelled from the spec: `INSERT INTO todos(subject, description)
VALUES(?, ?)`; the store assigns the id and both timestamps. -/
def execInsert (db : DB) (subject description : String) : DB × Except GoError ExecResult :=
  let id := db.nextId
  let row : Row :=
    { id := id, subject := subject, description := description,
      createdAt := db.clock, updatedAt := db.clock }
  ({ db with rows := db.rows ++ [row], seq := id, lastInsertRowid := id,
             statements := db.statements + 1 },
   .ok { lastInsertId := id, rowsAffected := 1 })

/-- Modelled from the spec: `UPDATE todos SET subject = ?, description = ?
WHERE id = ?`; the store refreshes `updated_at` of the rows it changes. An
UPDATE leaves the connection's last insert rowid as it was. -/
def execUpdate (db : DB) (subject description : String) (id : Int) :
    DB × Except GoError ExecResult :=
  let rows := db.rows.map (fun r =>
    if r.id = id then
      { r with subject := subject, description := description, updatedAt := db.clock }
    else r)
  ({ db with rows := rows, statements := db.statements + 1 },
   .ok { lastInsertId := db.lastInsertRowid,
         rowsAffected := ((db.rows.filter (fun r => r.id == id)).length : Int) })

/-- Statement `DELETE FROM todos WHERE id IN (?,...,?)` with one placeholder
per id. SQLite refuses the statement (`too many SQL variables`, a plain
`sqlite3.Error`) when it has more than `sqliteMaxVariableNumber`
placeholders, and then no row is deleted. -/
def execDelete (db : DB) (ids : List Int) : DB × Except GoError ExecResult :=
  if sqliteMaxVariableNumber < ids.length then
    ({ db with statements := db.statements + 1 },
     .error (.sqlite3 { code := sqlite3ErrError, extendedCode := sqlite3ErrError }))
  else
    ({ db with rows := db.rows.filter (fun r => !(ids.contains r.id)),
               statements := db.statements + 1 },
     .ok { lastInsertId := db.lastInsertRowid,
           rowsAffected := ((db.rows.filter (fun r => ids.contains r.id)).length : Int) })

/-- Query `SELECT subject, description, created_at, updated_at FROM todos
WHERE id = ?` through `QueryRowContext` and `Scan`: the first matching row, or
`sql.ErrNoRows` from `Scan` when there is none. -/
def queryConfirm (db : DB) (id : Int) :
    DB × Except GoError (String × String × Nat × Nat) :=
  let db1 := { db with statements := db.statements + 1 }
  match db.rows.find? (fun r => r.id == id) with
  | some r => (db1, .ok (r.subject, r.description, r.createdAt, r.updatedAt))
  | none => (db1, .error .errNoRows)

/-- Order relation of `ORDER BY id DESC`. -/
def idDesc (a b : Row) : Prop := b.id ≤ a.id

instance : DecidableRel idDesc := fun a b => by
  unfold idDesc; infer_instance

instance : IsTotal Row idDesc := ⟨fun a b => by
  unfold idDesc; exact le_total b.id a.id⟩

instance : IsTrans Row idDesc := ⟨fun a b c hab hbc => by
  unfold idDesc at *; exact le_trans hbc hab⟩

/-- Clause `ORDER BY id DESC`. -/
def orderByIdDesc (rows : List Row) : List Row :=
  rows.insertionSort idDesc

/-- Clause `LIMIT ?` of SQLite: a negative bound means no bound. -/
def applyLimit {α : Type} (limit : Int) (l : List α) : List α :=
  if limit < 0 then l else l.take limit.toNat

/-- Query `SELECT id, subject, description, created_at, updated_at FROM todos
ORDER BY id DESC LIMIT ?`. -/
def queryRead (db : DB) (limit : Int) : DB × Except GoError (List Row) :=
  ({ db with statements := db.statements + 1 },
   .ok (applyLimit limit (orderByIdDesc db.rows)))

/-- Query `SELECT id, subject, description, created_at, updated_at FROM todos
WHERE id < ? ORDER BY id DESC LIMIT ?`. -/
def queryReadWithID (db : DB) (prevID limit : Int) : DB × Except GoError (List Row) :=
  ({ db with statements := db.statements + 1 },
   .ok (applyLimit limit (orderByIdDesc (db.rows.filter (fun r => decide (r.id < prevID))))))

/-- The loop `for rows.Next() { rows.Scan(&todo.ID, ...) }` on one row. -/
def scanRow (r : Row) : TODO :=
  { id := r.id, subject := r.subject, description := r.description,
    createdAt := r.createdAt, updatedAt := r.updatedAt }

/-! ## `service/todo.go` -/

namespace TODOService

/-- `CreateTODO creates a TODO on DB.` -/
def CreateTODO (db : DB) (subject description : String) : DB × Except GoError TODO :=
  match execInsert db subject description with
  | (db1, .error err) => (db1, .error err)
  | (db1, .ok res) =>
    let id := res.lastInsertId
    match queryConfirm db1 id with
    | (db2, .error err) => (db2, .error err)
    | (db2, .ok (s, d, c, u)) =>
      (db2, .ok { id := id, subject := s, description := d, createdAt := c, updatedAt := u })

/-- `ReadTODO reads TODOs on DB.` -/
def ReadTODO (db : DB) (prevID size : Int) : DB × Except GoError (List TODO) :=
  let size := if size = 0 then -1 else size
  let q := if prevID = 0 then queryRead db size else queryReadWithID db prevID size
  match q with
  | (db1, .error err) => (db1, .error err)
  | (db1, .ok rows) => (db1, .ok (rows.map scanRow))

/-- `UpdateTODO updates the TODO on DB.` -/
def UpdateTODO (db : DB) (id : Int) (subject description : String) :
    DB × Except GoError TODO :=
  match execUpdate db subject description id with
  | (db1, .error err) => (db1, .error err)
  | (db1, .ok res) =>
    if res.rowsAffected = 0 then
      let err : ErrNotFound :=
        { sqlite3Error :=
            { code := sqlite3ErrConstraint, extendedCode := sqlite3ErrConstraintPrimaryKey } }
      (db1, .error err.Unwrap)
    else
      let id := res.lastInsertId
      match queryConfirm db1 id with
      | (db2, .error err) => (db2, .error err)
      | (db2, .ok (s, d, c, u)) =>
        (db2, .ok { id := id, subject := s, description := d, createdAt := c, updatedAt := u })

/-- `DeleteTODO deletes TODOs on DB by ids.` -/
def DeleteTODO (db : DB) (ids : List Int) : DB × Except GoError Unit :=
  if ids.length = 0 then (db, .ok ())
  else
    match execDelete db ids with
    | (db1, .error err) => (db1, .error err)
    | (db1, .ok res) =>
      if res.rowsAffected = 0 then
        (db1, .error (.notFound
          { sqlite3Error :=
              { code := sqlite3ErrConstraint, extendedCode := sqlite3ErrConstraintUnique } }))
      else (db1, .ok ())

end TODOService

/-! ## `net/http`, `encoding/json`, `strconv` as the handler uses them -/

/-- What the handler reads of an `*http.Request`: the method, the body and the
decoded query pairs of the URL in their order. -/
structure Request where
  method : String
  body : String
  query : List (String × String)
deriving DecidableEq, Repr

/-- What the handler leaves in the `http.ResponseWriter`: status and body. -/
structure Response where
  status : Nat
  body : String
deriving DecidableEq, Repr

/-- Call `w.WriteHeader(status)` followed by `return`. -/
def writeHeader (status : Nat) : Response :=
  { status := status, body := "" }

/-- Call `w.Write(b)` with no earlier `WriteHeader`: the status is 200. -/
def write (b : String) : Response :=
  { status := 200, body := b }

/-- Library package `encoding/json` at the types of the handler: decoding a
request body and marshalling a response. -/
structure JSONCodec where
  decodeCreate : String → Except GoError CreateTODORequest
  decodeUpdate : String → Except GoError UpdateTODORequest
  marshalCreate : CreateTODOResponse → Except GoError String
  marshalRead : ReadTODOResponse → Except GoError String
  marshalUpdate : UpdateTODOResponse → Except GoError String

/-- Call `r.URL.Query().Get(key)`: the first value of the key, or the empty
string when the key is absent. -/
def queryGet (query : List (String × String)) (key : String) : String :=
  match query.find? (fun kv => kv.1 == key) with
  | some kv => kv.2
  | none => ""

/-- Value of a run of decimal digits; `none` when a character is not a digit. -/
def digitsValue : List Char → Nat → Option Nat
  | [], acc => some acc
  | c :: cs, acc =>
    if c.isDigit then digitsValue cs (acc * 10 + (c.toNat - 48)) else none

/-- Library function `strconv.Atoi` for a 64-bit `int`: an optional sign, then
one or more decimal digits, and the value must fit. -/
def Atoi (s : String) : Except GoError Int :=
  let cs := s.toList
  let signed : Bool × List Char :=
    match cs with
    | '-' :: t => (true, t)
    | '+' :: t => (false, t)
    | _ => (false, cs)
  if signed.2.isEmpty then .error (.conversion s)
  else
    match digitsValue signed.2 0 with
    | none => .error (.conversion s)
    | some n =>
      let v : Int := if signed.1 then -(n : Int) else (n : Int)
      if -9223372036854775808 ≤ v ∧ v ≤ 9223372036854775807 then .ok v
      else .error (.conversion s)

/-! ## `handler/todo.go` -/

namespace TODOHandler

/-- `Create handles the endpoint that creates the TODO.` -/
def Create (db : DB) (req : CreateTODORequest) : DB × Except GoError CreateTODOResponse :=
  match TODOService.CreateTODO db req.subject req.description with
  | (db1, .error err) => (db1, .error err)
  | (db1, .ok res) => (db1, .ok { todo := res })

/-- `Read handles the endpoint that reads the TODOs.` -/
def Read (db : DB) (req : ReadTODORequest) : DB × Except GoError ReadTODOResponse :=
  match TODOService.ReadTODO db req.prevID req.size with
  | (db1, .error err) => (db1, .error err)
  | (db1, .ok todos) => (db1, .ok { todos := todos.foldl (fun res todo => res ++ [todo]) [] })

/-- `Update handles the endpoint that updates the TODO.` -/
def Update (db : DB) (req : UpdateTODORequest) : DB × Except GoError UpdateTODOResponse :=
  match TODOService.UpdateTODO db req.id req.subject req.description with
  | (db1, .error err) => (db1, .error err)
  | (db1, .ok res) => (db1, .ok { todo := res })

/-- `Delete handles the endpoint that deletes the TODOs.` The request is not
read: the service is called with a nil slice and its result is discarded. -/
def Delete (db : DB) (_req : DeleteTODORequest) : DB × Except GoError DeleteTODOResponse :=
  let (db1, _) := TODOService.DeleteTODO db []
  (db1, .ok {})

/-- The method `ServeHTTP`: a switch on `r.Method` with the cases `"POST"`,
`"PUT"`, `"GET"` and `default`. -/
def ServeHTTP (j : JSONCodec) (db : DB) (r : Request) : DB × Response :=
  if r.method = "POST" then
    match j.decodeCreate r.body with
    | .error _ => (db, writeHeader 400)
    | .ok req =>
      if req.subject = "" then (db, writeHeader 400)
      else
        match Create db req with
        | (db1, .error _) => (db1, writeHeader 500)
        | (db1, .ok res) =>
          match j.marshalCreate res with
          | .error _ => (db1, writeHeader 500)
          | .ok json => (db1, write json)
  else if r.method = "PUT" then
    match j.decodeUpdate r.body with
    | .error _ => (db, writeHeader 400)
    | .ok req =>
      if req.id = 0 ∨ req.subject = "" then (db, writeHeader 400)
      else
        match Update db req with
        | (db1, .error err) =>
          if errorsAsErrNotFound err then (db1, writeHeader 404)
          else (db1, writeHeader 500)
        | (db1, .ok res) =>
          match j.marshalUpdate res with
          | .error _ => (db1, writeHeader 500)
          | .ok json => (db1, write json)
  else if r.method = "GET" then
    let prevID := queryGet r.query "prev_id"
    let size := queryGet r.query "size"
    let prevID := if prevID = "" then "0" else prevID
    let size := if size = "" then "0" else size
    match Atoi prevID with
    | .error _ => (db, writeHeader 400)
    | .ok prevIDInt =>
      match Atoi size with
      | .error _ => (db, writeHeader 400)
      | .ok sizeInt =>
        let req : ReadTODORequest := { prevID := prevIDInt, size := sizeInt }
        match Read db req with
        | (db1, .error _) => (db1, writeHeader 500)
        | (db1, .ok res) =>
          match j.marshalRead res with
          | .error _ => (db1, writeHeader 500)
          | .ok json => (db1, write json)
  else (db, write "Method not allowed.\n")

end TODOHandler

/-! ## Sample data -/

/-- A decoder and marshaller fixed on a few literal bodies, for evaluating the
handler on concrete requests. -/
def sampleCodec : JSONCodec where
  decodeCreate := fun body =>
    if body = "\x7b\"subject\":\"buy milk\",\"description\":\"\"\x7d" then
      .ok { subject := "buy milk", description := "" }
    else if body = "\x7b\"subject\":\"\",\"description\":\"\"\x7d" then
      .ok { subject := "", description := "" }
    else .error (.encoding body)
  decodeUpdate := fun body =>
    if body = "\x7b\"id\":999,\"subject\":\"x\",\"description\":\"\"\x7d" then
      .ok { id := 999, subject := "x", description := "" }
    else if body = "\x7b\"id\":1,\"subject\":\"buy milk and eggs\",\"description\":\"\"\x7d" then
      .ok { id := 1, subject := "buy milk and eggs", description := "" }
    else if body = "\x7b\"id\":0,\"subject\":\"x\",\"description\":\"\"\x7d" then
      .ok { id := 0, subject := "x", description := "" }
    else .error (.encoding body)
  marshalCreate := fun res => .ok ("\x7b\"todo\":" ++ res.todo.subject ++ "\x7d")
  marshalRead := fun res => .ok ("\x7b\"todos\":" ++ String.join (res.todos.map TODO.subject) ++ "\x7d")
  marshalUpdate := fun res => .ok ("\x7b\"todo\":" ++ res.todo.subject ++ "\x7d")

/-- The store after `CreateTODO "a" ""` and `CreateTODO "b" ""` on an empty
store: rows 1 and 2, the last insert rowid of the connection is 2. -/
def twoRows : DB :=
  (TODOService.CreateTODO (TODOService.CreateTODO DB.empty "a" "").1 "b" "").1

/-! # Theorems -/

/-! ## Supporting lemmas: errors -/

theorem errorsAs_sqlite3 (e : Sqlite3Error) : errorsAsErrNotFound (.sqlite3 e) = false := rfl

theorem errorsAs_notFound (e : ErrNotFound) : errorsAsErrNotFound (.notFound e) = true := rfl

/-! ## Supporting lemmas: the store -/

theorem hasId_eq_false_iff (db : DB) (id : Int) :
    db.hasId id = false ↔ ∀ r ∈ db.rows, r.id ≠ id := by
  simp [DB.hasId]

theorem hasId_eq_true_iff (db : DB) (id : Int) :
    db.hasId id = true ↔ ∃ r ∈ db.rows, r.id = id := by
  simp [DB.hasId]

theorem filter_contains_eq_nil_iff (db : DB) (ids : List Int) :
    db.rows.filter (fun r => ids.contains r.id) = [] ↔ ∀ id ∈ ids, db.hasId id = false := by
  simp only [List.filter_eq_nil_iff, hasId_eq_false_iff]
  constructor
  · intro h id hid r hr heq
    apply h r hr
    simp [heq, hid]
  · intro h r hr hc
    simp at hc
    exact h r.id hc r hr rfl

theorem filter_id_eq_nil_iff (db : DB) (id : Int) :
    db.rows.filter (fun r => r.id == id) = [] ↔ db.hasId id = false := by
  simp [List.filter_eq_nil_iff, hasId_eq_false_iff]

/-! ## Delete -/

/-- C4. `DeleteTODO` with an empty id list succeeds and returns the store as it
was, the count of executed statements included; `TODOHandler.Delete` passes no
ids, so for every request it returns the empty response, no error, and the
same store. -/
theorem deleteTODO_empty_noop (db : DB) (req : DeleteTODORequest) :
    TODOService.DeleteTODO db [] = (db, .ok ()) ∧
    TODOHandler.Delete db req = (db, .ok {}) := by
  constructor <;> rfl

theorem deleteTODO_eq (db : DB) (ids : List Int) (h : ids ≠ [])
    (hmax : ids.length ≤ sqliteMaxVariableNumber) :
    TODOService.DeleteTODO db ids =
      ({ db with rows := db.rows.filter (fun r => !(ids.contains r.id)),
                 statements := db.statements + 1 },
       if db.rows.filter (fun r => ids.contains r.id) = [] then
         .error (.notFound ⟨⟨sqlite3ErrConstraint, sqlite3ErrConstraintUnique⟩⟩)
       else .ok ()) := by
  have hlen : ids.length ≠ 0 := by
    intro h0; exact h (List.length_eq_zero.mp h0)
  have hfit : ¬ (sqliteMaxVariableNumber < ids.length) := not_lt.mpr hmax
  by_cases hnone : db.rows.filter (fun r => ids.contains r.id) = []
  · simp only [TODOService.DeleteTODO, execDelete, hlen, hfit, hnone, if_false, List.length_nil,
      Nat.cast_zero, if_true]
  · have hcount : ((db.rows.filter (fun r => ids.contains r.id)).length : Int) ≠ 0 := by
      intro h0
      exact hnone (List.length_eq_zero.mp (by exact_mod_cast h0))
    simp only [TODOService.DeleteTODO, execDelete, hlen, hfit, hcount, hnone, if_false]

theorem deleteTODO_too_many (db : DB) (ids : List Int)
    (hmax : sqliteMaxVariableNumber < ids.length) :
    TODOService.DeleteTODO db ids =
      ({ db with statements := db.statements + 1 },
       .error (.sqlite3 ⟨sqlite3ErrError, sqlite3ErrError⟩)) := by
  have hlen : ids.length ≠ 0 := by
    intro h0
    rw [h0] at hmax
    exact Nat.not_lt_zero _ hmax
  simp only [TODOService.DeleteTODO, execDelete, hlen, hmax, if_false, if_true]

/-- C3, counterexample. On the store with rows 1 and 2, `DeleteTODO` with a
list of 32767 ids, each of them the existing id 1, does not succeed: the store
refuses the statement, the call returns a plain `sqlite3.Error`, which
`errors.As` does not match as `*model.ErrNotFound`, and row 1 is still in the
store afterwards. -/
theorem deleteTODO_too_many_ids_counterexample :
    List.replicate 32767 (1 : Int) ≠ [] ∧
    (1 : Int) ∈ List.replicate 32767 (1 : Int) ∧
    twoRows.hasId 1 = true ∧
    (TODOService.DeleteTODO twoRows (List.replicate 32767 1)).2 =
      .error (.sqlite3 ⟨sqlite3ErrError, sqlite3ErrError⟩) ∧
    errorsAsErrNotFound (.sqlite3 ⟨sqlite3ErrError, sqlite3ErrError⟩) = false ∧
    (TODOService.DeleteTODO twoRows (List.replicate 32767 1)).1.hasId 1 = true := by
  have hmax : sqliteMaxVariableNumber < (List.replicate 32767 (1 : Int)).length := by
    rw [List.length_replicate]
    decide
  have hne : List.replicate 32767 (1 : Int) ≠ [] := by
    intro hc
    have hl := congrArg List.length hc
    rw [List.length_replicate] at hl
    cases hl
  have hmem : (1 : Int) ∈ List.replicate 32767 (1 : Int) :=
    List.mem_replicate.mpr ⟨by decide, rfl⟩
  rw [deleteTODO_too_many twoRows _ hmax]
  exact ⟨hne, hmem, by decide, rfl, rfl, by decide⟩

/-- C3, amended. For a non-empty id list of at most 32766 ids (one placeholder
each, the bound of SQLite on one statement) `DeleteTODO` fails with the
`*model.ErrNotFound` exactly when no given id is in the store, it fails in no
other way, it succeeds as soon as one given id exists, and afterwards the
store holds exactly the rows whose id is not in the list, in their order. -/
theorem deleteTODO_notFound_iff (db : DB) (ids : List Int) (h : ids ≠ [])
    (hmax : ids.length ≤ sqliteMaxVariableNumber) :
    ((TODOService.DeleteTODO db ids).2 =
        .error (.notFound ⟨⟨sqlite3ErrConstraint, sqlite3ErrConstraintUnique⟩⟩) ↔
      ∀ id ∈ ids, db.hasId id = false) ∧
    (∀ e, (TODOService.DeleteTODO db ids).2 = .error e → errorsAsErrNotFound e = true) ∧
    ((∃ id ∈ ids, db.hasId id = true) → (TODOService.DeleteTODO db ids).2 = .ok ()) ∧
    (∀ r, r ∈ (TODOService.DeleteTODO db ids).1.rows ↔ r ∈ db.rows ∧ r.id ∉ ids) ∧
    (TODOService.DeleteTODO db ids).1.rows.Sublist db.rows := by
  rw [deleteTODO_eq db ids h hmax]
  by_cases hnone : db.rows.filter (fun r => ids.contains r.id) = []
  · have hall := (filter_contains_eq_nil_iff db ids).mp hnone
    simp only [hnone, if_true]
    refine ⟨⟨fun _ => hall, fun _ => trivial⟩, ?_, ?_, ?_, ?_⟩
    · intro e he
      cases he
      rfl
    · rintro ⟨id, hid, hex⟩
      rw [hall id hid] at hex
      cases hex
    · intro r; simp
    · simp
  · have hsome : ¬ ∀ id ∈ ids, db.hasId id = false := fun hc =>
      hnone ((filter_contains_eq_nil_iff db ids).mpr hc)
    simp only [hnone, if_false]
    refine ⟨⟨fun hc => (by cases hc), fun hc => absurd hc hsome⟩, ?_, ?_, ?_, ?_⟩
    · intro e he; cases he
    · intro _; trivial
    · intro r; simp
    · simp

/-- Instance of the delete contract: ids 1 and 7 on the store with rows 1 and 2. -/
theorem deleteTODO_notFound_iff_witness :
    ([1, 7] : List Int) ≠ [] ∧
    ([1, 7] : List Int).length ≤ sqliteMaxVariableNumber ∧
    (TODOService.DeleteTODO twoRows [1, 7]).2 = .ok () ∧
    (TODOService.DeleteTODO twoRows [1, 7]).1.rows.Sublist twoRows.rows :=
  ⟨by decide, by decide,
   (deleteTODO_notFound_iff twoRows [1, 7] (by decide) (by decide)).2.2.1
     ⟨1, by decide, by decide⟩,
   (deleteTODO_notFound_iff twoRows [1, 7] (by decide) (by decide)).2.2.2.2⟩

/-! ## Update -/

theorem updateTODO_of_missing (db : DB) (id : Int) (subject description : String)
    (h : db.hasId id = false) :
    (TODOService.UpdateTODO db id subject description).2 =
      .error (.sqlite3 ⟨sqlite3ErrConstraint, sqlite3ErrConstraintPrimaryKey⟩) := by
  have hnil := (filter_id_eq_nil_iff db id).mpr h
  simp only [TODOService.UpdateTODO, execUpdate, hnil, List.length_nil, Nat.cast_zero, if_true,
    ErrNotFound.Unwrap]

theorem serveHTTP_put_of_missing (j : JSONCodec) (db : DB) (r : Request) (req : UpdateTODORequest)
    (hm : r.method = "PUT") (hd : j.decodeUpdate r.body = .ok req)
    (hid : req.id ≠ 0) (hs : req.subject ≠ "") (h : db.hasId req.id = false) :
    (TODOHandler.ServeHTTP j db r).2 = writeHeader 500 := by
  have hu := updateTODO_of_missing db req.id req.subject req.description h
  have hne : ¬ ("PUT" = "POST") := by decide
  unfold TODOHandler.ServeHTTP
  simp only [hm, hne, if_false, if_true, hd, hid, hs, or_self, TODOHandler.Update]
  revert hu
  rcases TODOService.UpdateTODO db req.id req.subject req.description with ⟨db1, res⟩
  intro hu
  simp only at hu
  subst hu
  rfl

/-- C1. On the store with rows 1 and 2, `UpdateTODO(999, "x", "")` updates no
row and returns the bare `sqlite3.Error` that `Unwrap` yields, which
`errors.As` does not match as `*model.ErrNotFound`; the PUT request with that
body is answered with status 500. -/
theorem updateTODO_missing_id_answers_500 :
    twoRows.hasId 999 = false ∧
    (TODOService.UpdateTODO twoRows 999 "x" "").2 =
      .error (.sqlite3 ⟨sqlite3ErrConstraint, sqlite3ErrConstraintPrimaryKey⟩) ∧
    errorsAsErrNotFound (.sqlite3 ⟨sqlite3ErrConstraint, sqlite3ErrConstraintPrimaryKey⟩) = false ∧
    (TODOHandler.ServeHTTP sampleCodec twoRows
      ⟨"PUT", "\x7b\"id\":999,\"subject\":\"x\",\"description\":\"\"\x7d", []⟩).2 =
      writeHeader 500 := by
  decide

theorem updateTODO_of_present (db : DB) (id : Int) (subject description : String)
    (h : db.hasId id = true) :
    TODOService.UpdateTODO db id subject description =
      match queryConfirm (execUpdate db subject description id).1 db.lastInsertRowid with
      | (db2, .error err) => (db2, .error err)
      | (db2, .ok (s, d, c, u)) =>
        (db2, .ok { id := db.lastInsertRowid, subject := s, description := d,
                    createdAt := c, updatedAt := u }) := by
  have hne : db.rows.filter (fun r => r.id == id) ≠ [] := by
    intro hc
    rw [(filter_id_eq_nil_iff db id).mp hc] at h
    cases h
  have hcount : ((db.rows.filter (fun r => r.id == id)).length : Int) ≠ 0 := by
    intro h0
    exact hne (List.length_eq_zero.mp (by exact_mod_cast h0))
  simp only [TODOService.UpdateTODO, execUpdate, hcount, if_false]

/-- C2. On the store with rows 1 ("a") and 2 ("b"), both created on the
connection, `UpdateTODO(1, "x", "")` changes row 1 but returns the entity of
row 2, the last inserted one: id 2 and subject "b". On a connection that has
inserted nothing the same call fails with `sql.ErrNoRows`. -/
theorem updateTODO_returns_last_inserted_row :
    twoRows.hasId 1 = true ∧
    (TODOService.UpdateTODO twoRows 1 "x" "").2 =
      .ok { id := 2, subject := "b", description := "", createdAt := 0, updatedAt := 0 } ∧
    (TODOService.UpdateTODO { twoRows with lastInsertRowid := 0 } 1 "x" "").2 =
      .error .errNoRows := by
  decide

/-! ## The handler -/

/-- C7. A POST whose decoded subject is empty, and a PUT whose decoded id is 0
or whose decoded subject is empty, is answered with status 400 and an empty
body, and the store comes back as it was, statement count included: the
service was not invoked. -/
theorem serveHTTP_validation_400 (j : JSONCodec) (db : DB) (r : Request)
    (h : (r.method = "POST" ∧ ∃ req, j.decodeCreate r.body = .ok req ∧ req.subject = "") ∨
         (r.method = "PUT" ∧ ∃ req, j.decodeUpdate r.body = .ok req ∧
            (req.id = 0 ∨ req.subject = ""))) :
    TODOHandler.ServeHTTP j db r = (db, { status := 400, body := "" }) := by
  have hne : ¬ ("PUT" = "POST") := by decide
  rcases h with ⟨hm, req, hd, hs⟩ | ⟨hm, req, hd, hv⟩
  · simp only [TODOHandler.ServeHTTP, hm, if_true, hd, hs, writeHeader]
  · simp only [TODOHandler.ServeHTTP, hm, hne, if_false, if_true, hd, hv, writeHeader]

/-- Instance of the validation contract: a POST with an empty subject. -/
theorem serveHTTP_validation_400_witness :
    ((({ method := "POST", body := "\x7b\"subject\":\"\",\"description\":\"\"\x7d",
         query := [] } : Request).method = "POST" ∧
        ∃ req, sampleCodec.decodeCreate "\x7b\"subject\":\"\",\"description\":\"\"\x7d" = .ok req ∧
          req.subject = "") ∨
      (({ method := "POST", body := "\x7b\"subject\":\"\",\"description\":\"\"\x7d",
          query := [] } : Request).method = "PUT" ∧
        ∃ req, sampleCodec.decodeUpdate "\x7b\"subject\":\"\",\"description\":\"\"\x7d" = .ok req ∧
          (req.id = 0 ∨ req.subject = ""))) ∧
    TODOHandler.ServeHTTP sampleCodec twoRows
      { method := "POST", body := "\x7b\"subject\":\"\",\"description\":\"\"\x7d", query := [] } =
      (twoRows, { status := 400, body := "" }) :=
  ⟨Or.inl ⟨rfl, ⟨{ subject := "", description := "" }, by decide, rfl⟩⟩,
   serveHTTP_validation_400 sampleCodec twoRows _
     (Or.inl ⟨rfl, ⟨{ subject := "", description := "" }, by decide, rfl⟩⟩)⟩

theorem serveHTTP_default (j : JSONCodec) (db : DB) (r : Request)
    (h1 : r.method ≠ "POST") (h2 : r.method ≠ "PUT") (h3 : r.method ≠ "GET") :
    TODOHandler.ServeHTTP j db r = (db, write "Method not allowed.\n") := by
  simp only [TODOHandler.ServeHTTP, h1, h2, h3, if_false]

/-- C10. On the store with rows 1 and 2, the DELETE request with body
`{"ids":[1]}` falls into the `default` case of the switch: the answer is status
200 with the text `Method not allowed.`, not `{}`, and row 1 is still in the
store afterwards. -/
theorem serveHTTP_delete_not_dispatched :
    twoRows.hasId 1 = true ∧
    TODOHandler.ServeHTTP sampleCodec twoRows
      { method := "DELETE", body := "\x7b\"ids\":[1]\x7d", query := [] } =
      (twoRows, { status := 200, body := "Method not allowed.\n" }) ∧
    (TODOHandler.ServeHTTP sampleCodec twoRows
      { method := "DELETE", body := "\x7b\"ids\":[1]\x7d", query := [] }).1.hasId 1 = true := by
  decide

theorem foldl_append_singleton {α : Type} (l acc : List α) :
    l.foldl (fun res x => res ++ [x]) acc = acc ++ l := by
  induction l generalizing acc with
  | nil => simp
  | cons x xs ih => simp [ih]

theorem handler_read_eq (db : DB) (req : ReadTODORequest) :
    TODOHandler.Read db req =
      match TODOService.ReadTODO db req.prevID req.size with
      | (db1, .error err) => (db1, .error err)
      | (db1, .ok todos) => (db1, .ok { todos := todos }) := by
  unfold TODOHandler.Read
  rcases TODOService.ReadTODO db req.prevID req.size with ⟨db1, _ | todos⟩
  · rfl
  · simp only [foldl_append_singleton, List.nil_append]

theorem atoi_zero : Atoi "0" = .ok 0 := by decide

/-- C9. For a GET request, with `prev_id` and `size` defaulted to "0" when
absent or empty, the answer has status 400 exactly when `strconv.Atoi` rejects
one of the two; when both parse, the request is answered from
`ReadTODO` called with exactly the two parsed integers (500 when the service
or the marshalling fails, else 200 with the marshalled rows); with neither
parameter given that call is `ReadTODO(0, 0)`. -/
theorem serveHTTP_get (j : JSONCodec) (db : DB) (r : Request) (prevID size : String)
    (hm : r.method = "GET")
    (hp : prevID = if queryGet r.query "prev_id" = "" then "0" else queryGet r.query "prev_id")
    (hs : size = if queryGet r.query "size" = "" then "0" else queryGet r.query "size") :
    ((TODOHandler.ServeHTTP j db r).2.status = 400 ↔
      ((∃ e, Atoi prevID = .error e) ∨ (∃ e, Atoi size = .error e))) ∧
    (∀ p s, Atoi prevID = .ok p → Atoi size = .ok s →
      TODOHandler.ServeHTTP j db r =
        match TODOService.ReadTODO db p s with
        | (db1, .error _) => (db1, writeHeader 500)
        | (db1, .ok todos) =>
          match j.marshalRead { todos := todos } with
          | .error _ => (db1, writeHeader 500)
          | .ok json => (db1, write json)) ∧
    (queryGet r.query "prev_id" = "" → queryGet r.query "size" = "" →
      TODOHandler.ServeHTTP j db r =
        match TODOService.ReadTODO db 0 0 with
        | (db1, .error _) => (db1, writeHeader 500)
        | (db1, .ok todos) =>
          match j.marshalRead { todos := todos } with
          | .error _ => (db1, writeHeader 500)
          | .ok json => (db1, write json)) := by
  have hne1 : ¬ ("GET" = "POST") := by decide
  have hne2 : ¬ ("GET" = "PUT") := by decide
  have key : TODOHandler.ServeHTTP j db r =
      match Atoi prevID with
      | .error _ => (db, writeHeader 400)
      | .ok p =>
        match Atoi size with
        | .error _ => (db, writeHeader 400)
        | .ok s =>
          match TODOService.ReadTODO db p s with
          | (db1, .error _) => (db1, writeHeader 500)
          | (db1, .ok todos) =>
            match j.marshalRead { todos := todos } with
            | .error _ => (db1, writeHeader 500)
            | .ok json => (db1, write json) := by
    simp only [TODOHandler.ServeHTTP, hm, hne1, hne2, if_false, if_true, ← hp, ← hs,
      handler_read_eq]
    cases Atoi prevID with
    | error e => rfl
    | ok p =>
      cases Atoi size with
      | error e => rfl
      | ok s =>
        simp only
        rcases TODOService.ReadTODO db p s with ⟨db1, _ | todos⟩ <;> rfl
  have both : ∀ p s, Atoi prevID = .ok p → Atoi size = .ok s →
      TODOHandler.ServeHTTP j db r =
        match TODOService.ReadTODO db p s with
        | (db1, .error _) => (db1, writeHeader 500)
        | (db1, .ok todos) =>
          match j.marshalRead { todos := todos } with
          | .error _ => (db1, writeHeader 500)
          | .ok json => (db1, write json) := by
    intro p s h1 h2
    rw [key, h1, h2]
  refine ⟨?_, both, ?_⟩
  · rw [key]
    cases h1 : Atoi prevID with
    | error e => simp [writeHeader]
    | ok p =>
      cases h2 : Atoi size with
      | error e => simp [writeHeader]
      | ok s =>
        simp only
        rcases TODOService.ReadTODO db p s with ⟨db1, _ | todos⟩
        · simp [writeHeader]
        · simp only
          cases j.marshalRead { todos := todos } <;> simp [writeHeader, write]
  · intro h1 h2
    rw [h1] at hp
    rw [h2] at hs
    simp only [if_true] at hp hs
    apply both 0 0
    · rw [hp]; exact atoi_zero
    · rw [hs]; exact atoi_zero

/-- Instance of the GET contract: the request `GET /todos?size=abc`. -/
theorem serveHTTP_get_witness :
    ({ method := "GET", body := "", query := [("size", "abc")] } : Request).method = "GET" ∧
    ((TODOHandler.ServeHTTP sampleCodec twoRows
        { method := "GET", body := "", query := [("size", "abc")] }).2.status = 400 ↔
      ((∃ e, Atoi "0" = .error e) ∨ (∃ e, Atoi "abc" = .error e))) :=
  ⟨rfl, (serveHTTP_get sampleCodec twoRows
      { method := "GET", body := "", query := [("size", "abc")] } "0" "abc"
      rfl (by decide) (by decide)).1⟩

theorem serveHTTP_examples :
    (TODOHandler.ServeHTTP sampleCodec twoRows
      { method := "GET", body := "", query := [("size", "abc")] }).2.status = 400 ∧
    (TODOHandler.ServeHTTP sampleCodec twoRows
      { method := "GET", body := "", query := [] }).2 =
      { status := 200, body := "\x7b\"todos\":ba\x7d" } ∧
    TODOHandler.ServeHTTP sampleCodec twoRows
      { method := "PUT", body := "\x7b\"id\":0,\"subject\":\"x\",\"description\":\"\"\x7d",
        query := [] } = (twoRows, { status := 400, body := "" }) := by
  decide

/-! ## Read -/

theorem readTODO_eq (db : DB) (prevID size : Int) :
    TODOService.ReadTODO db prevID size =
      ({ db with statements := db.statements + 1 },
       .ok ((applyLimit (if size = 0 then -1 else size)
          (orderByIdDesc (db.rows.filter (fun r => decide (prevID = 0 ∨ r.id < prevID))))).map
            scanRow)) := by
  by_cases hp : prevID = 0
  · have hall : db.rows.filter (fun r => decide (prevID = 0 ∨ r.id < prevID)) = db.rows := by
      rw [List.filter_eq_self]
      intro r _
      simp [hp]
    rw [hall]
    simp only [TODOService.ReadTODO, hp, if_true, queryRead]
  · simp only [TODOService.ReadTODO, hp, if_false, queryReadWithID, false_or]

theorem orderByIdDesc_perm (rows : List Row) : (orderByIdDesc rows).Perm rows :=
  List.perm_insertionSort idDesc rows

theorem orderByIdDesc_sorted (rows : List Row) :
    (orderByIdDesc rows).Pairwise (fun a b => b.id ≤ a.id) :=
  List.sorted_insertionSort idDesc rows

theorem orderByIdDesc_strict (rows : List Row) (h : (rows.map Row.id).Nodup) :
    (orderByIdDesc rows).Pairwise (fun a b => b.id < a.id) := by
  have hnd : ((orderByIdDesc rows).map Row.id).Nodup :=
    ((orderByIdDesc_perm rows).map Row.id).nodup_iff.mpr h
  have hne : (orderByIdDesc rows).Pairwise (fun a b => a.id ≠ b.id) := by
    rw [List.Nodup, List.pairwise_map] at hnd
    exact hnd
  exact ((orderByIdDesc_sorted rows).and hne).imp
    (fun hab => lt_of_le_of_ne hab.1 (Ne.symm hab.2))

theorem filter_ids_nodup (rows : List Row) (p : Row → Bool) (h : (rows.map Row.id).Nodup) :
    ((rows.filter p).map Row.id).Nodup :=
  h.sublist ((List.filter_sublist rows).map Row.id)

theorem applyLimit_neg {α : Type} (limit : Int) (l : List α) (h : limit < 0) :
    applyLimit limit l = l := by
  simp [applyLimit, h]

theorem applyLimit_nonneg {α : Type} (limit : Int) (l : List α) (h : 0 ≤ limit) :
    applyLimit limit l = l.take limit.toNat := by
  simp [applyLimit, not_lt.mpr h]

theorem readTODO_zero_size (db : DB) (prevID : Int) :
    (TODOService.ReadTODO db prevID 0).2 =
      .ok ((orderByIdDesc
        (db.rows.filter (fun r => decide (prevID = 0 ∨ r.id < prevID)))).map scanRow) := by
  rw [readTODO_eq]
  simp only [if_true]
  rw [applyLimit_neg _ _ (by decide)]

/-- C5. On a store whose ids are unique, `ReadTODO(prevID, 0)` succeeds with a
sequence in strictly descending id order that is a rearrangement of exactly
the qualifying rows: all rows when `prevID == 0`, else the rows with
`id < prevID`; when no row qualifies the sequence is empty. -/
theorem readTODO_unlimited (db : DB) (prevID : Int) (h : db.uniqueIds) :
    ∃ todos, (TODOService.ReadTODO db prevID 0).2 = .ok todos ∧
      todos.Pairwise (fun a b => b.id < a.id) ∧
      todos.Perm
        ((db.rows.filter (fun r => decide (prevID = 0 ∨ r.id < prevID))).map scanRow) ∧
      (∀ t, t ∈ todos ↔ ∃ r ∈ db.rows, (prevID = 0 ∨ r.id < prevID) ∧ scanRow r = t) ∧
      (prevID = 0 → todos.Perm (db.rows.map scanRow)) ∧
      ((∀ r ∈ db.rows, ¬ (prevID = 0 ∨ r.id < prevID)) → todos = []) := by
  refine ⟨_, readTODO_zero_size db prevID, ?_, ?_, ?_, ?_, ?_⟩
  · rw [List.pairwise_map]
    exact orderByIdDesc_strict _ (filter_ids_nodup _ _ h)
  · exact (orderByIdDesc_perm _).map scanRow
  · intro t
    simp only [List.mem_map, (orderByIdDesc_perm _).mem_iff, List.mem_filter, decide_eq_true_eq]
    constructor
    · rintro ⟨r, ⟨hr, hq⟩, rfl⟩
      exact ⟨r, hr, hq, rfl⟩
    · rintro ⟨r, hr, hq, rfl⟩
      exact ⟨r, ⟨hr, hq⟩, rfl⟩
  · intro hp
    have hall : db.rows.filter (fun r => decide (prevID = 0 ∨ r.id < prevID)) = db.rows := by
      rw [List.filter_eq_self]
      intro r _
      simp [hp]
    rw [hall]
    exact (orderByIdDesc_perm _).map scanRow
  · intro hno
    have hnil : db.rows.filter (fun r => decide (prevID = 0 ∨ r.id < prevID)) = [] := by
      rw [List.filter_eq_nil_iff]
      intro r hr
      simpa using hno r hr
    rw [hnil]
    rfl

/-- Instance of the read contract: `ReadTODO(2, 0)` on the store with rows 1 and 2. -/
theorem readTODO_unlimited_witness :
    twoRows.uniqueIds ∧
    ∃ todos, (TODOService.ReadTODO twoRows 2 0).2 = .ok todos ∧
      todos.Pairwise (fun a b => b.id < a.id) ∧
      todos.Perm
        ((twoRows.rows.filter (fun r => decide ((2 : Int) = 0 ∨ r.id < 2))).map scanRow) ∧
      (∀ t, t ∈ todos ↔ ∃ r ∈ twoRows.rows, ((2 : Int) = 0 ∨ r.id < 2) ∧ scanRow r = t) ∧
      ((2 : Int) = 0 → todos.Perm (twoRows.rows.map scanRow)) ∧
      ((∀ r ∈ twoRows.rows, ¬ ((2 : Int) = 0 ∨ r.id < 2)) → todos = []) :=
  ⟨by decide, readTODO_unlimited twoRows 2 (by decide)⟩

/-- C6, counterexample. On the store with rows 1 and 2, `ReadTODO(0, -1)` has a
size other than 0 and returns both rows, which is more than `size` rows. -/
theorem readTODO_negative_size_counterexample :
    (TODOService.ReadTODO twoRows 0 (-1)).2 =
      .ok [{ id := 2, subject := "b", description := "", createdAt := 0, updatedAt := 0 },
           { id := 1, subject := "a", description := "", createdAt := 0, updatedAt := 0 }] ∧
    ¬ ((([{ id := 2, subject := "b", description := "", createdAt := 0, updatedAt := 0 },
          { id := 1, subject := "a", description := "", createdAt := 0, updatedAt := 0 }] :
          List TODO).length : Int) ≤ -1) := by
  decide

/-- C6, amended. `ReadTODO(prevID, size)` treats `size == 0` and every negative
size as no limit and returns all qualifying rows, newest first; for every
`size > 0` it returns the first `size` rows of that sequence, so at most
`size` rows. -/
theorem readTODO_limit (db : DB) (prevID size : Int) :
    ∃ all, (TODOService.ReadTODO db prevID 0).2 = .ok all ∧
      all.Pairwise (fun a b => b.id ≤ a.id) ∧
      all.Perm
        ((db.rows.filter (fun r => decide (prevID = 0 ∨ r.id < prevID))).map scanRow) ∧
      (size ≤ 0 → (TODOService.ReadTODO db prevID size).2 = .ok all) ∧
      (0 < size →
        (TODOService.ReadTODO db prevID size).2 = .ok (all.take size.toNat) ∧
        ((all.take size.toNat).length : Int) ≤ size) := by
  refine ⟨_, readTODO_zero_size db prevID, ?_, ?_, ?_, ?_⟩
  · rw [List.pairwise_map]
    exact orderByIdDesc_sorted _
  · exact (orderByIdDesc_perm _).map scanRow
  · intro hs
    rw [readTODO_eq]
    by_cases h0 : size = 0
    · simp only [h0, if_true]
      rw [applyLimit_neg _ _ (by decide)]
    · simp only [h0, if_false]
      rw [applyLimit_neg _ _ (lt_of_le_of_ne hs h0)]
  · intro hs
    have h0 : size ≠ 0 := ne_of_gt hs
    constructor
    · rw [readTODO_eq]
      simp only [h0, if_false]
      rw [applyLimit_nonneg _ _ (le_of_lt hs), List.map_take]
    · have hle : (List.take size.toNat
          ((orderByIdDesc (db.rows.filter
            (fun r => decide (prevID = 0 ∨ r.id < prevID)))).map scanRow)).length ≤ size.toNat :=
        List.length_take_le _ _
      have hto : (size.toNat : Int) = size := Int.toNat_of_nonneg (le_of_lt hs)
      omega

/-! ## Create, and the round trip through Read -/

theorem foldl_max_ge_init (l : List Row) (m : Int) :
    m ≤ l.foldl (fun m r => max m r.id) m := by
  induction l generalizing m with
  | nil => exact le_refl m
  | cons x xs ih => exact le_trans (le_max_left m x.id) (ih (max m x.id))

theorem foldl_max_ge_mem (l : List Row) (m : Int) (r : Row) (hr : r ∈ l) :
    r.id ≤ l.foldl (fun m r => max m r.id) m := by
  induction l generalizing m with
  | nil => cases hr
  | cons x xs ih =>
    rcases List.mem_cons.mp hr with rfl | hmem
    · exact le_trans (le_max_right m r.id) (foldl_max_ge_init xs (max m r.id))
    · exact ih (max m x.id) hmem

theorem lt_nextId (db : DB) (r : Row) (hr : r ∈ db.rows) : r.id < db.nextId := by
  have := foldl_max_ge_mem db.rows db.seq r hr
  unfold DB.nextId
  omega

theorem find_append_new (rows : List Row) (x : Row) (h : ∀ r ∈ rows, r.id < x.id) :
    (rows ++ [x]).find? (fun r => r.id == x.id) = some x := by
  induction rows with
  | nil => simp
  | cons a as ih =>
    have ha : a.id ≠ x.id := ne_of_lt (h a (List.mem_cons_self a as))
    have hrest : ∀ r ∈ as, r.id < x.id := fun r hr => h r (List.mem_cons_of_mem a hr)
    have hb : (a.id == x.id) = false := by simp [ha]
    simp only [List.cons_append, List.find?_cons, hb]
    exact ih hrest

theorem createTODO_eq (db : DB) (subject description : String) :
    TODOService.CreateTODO db subject description =
      ({ db with
          rows := db.rows ++ [{ id := db.nextId, subject := subject, description := description,
                                createdAt := db.clock, updatedAt := db.clock }],
          seq := db.nextId, lastInsertRowid := db.nextId, statements := db.statements + 2 },
       .ok { id := db.nextId, subject := subject, description := description,
             createdAt := db.clock, updatedAt := db.clock }) := by
  have hfind := find_append_new db.rows
    { id := db.nextId, subject := subject, description := description,
      createdAt := db.clock, updatedAt := db.clock } (fun r hr => lt_nextId db r hr)
  simp only at hfind
  simp only [TODOService.CreateTODO, execInsert, queryConfirm, hfind]

theorem orderByIdDesc_append_max (rows : List Row) (x : Row) (h : ∀ r ∈ rows, r.id < x.id) :
    orderByIdDesc (rows ++ [x]) = x :: orderByIdDesc rows := by
  induction rows with
  | nil => rfl
  | cons a as ih =>
    have ha : ¬ idDesc a x := by
      unfold idDesc
      exact not_le.mpr (h a (List.mem_cons_self a as))
    have hrest : ∀ r ∈ as, r.id < x.id := fun r hr => h r (List.mem_cons_of_mem a hr)
    unfold orderByIdDesc at ih ⊢
    show List.orderedInsert idDesc a (List.insertionSort idDesc (as ++ [x])) =
      x :: List.orderedInsert idDesc a (List.insertionSort idDesc as)
    rw [ih hrest]
    simp only [List.orderedInsert, ha, if_false]

theorem readTODO_newest (db : DB) (rows : List Row) (x : Row) (hrows : db.rows = rows ++ [x])
    (h : ∀ r ∈ rows, r.id < x.id) :
    (TODOService.ReadTODO db (x.id + 1) 1).2 = .ok [scanRow x] := by
  rw [readTODO_eq, hrows]
  have hall : (rows ++ [x]).filter (fun r => decide (x.id + 1 = 0 ∨ r.id < x.id + 1)) =
      rows ++ [x] := by
    rw [List.filter_eq_self]
    intro r hr
    rcases List.mem_append.mp hr with hmem | hnew
    · have := h r hmem
      simp only [decide_eq_true_eq]
      right; omega
    · rw [List.mem_singleton.mp hnew]
      simp
  have h1 : ¬ ((1 : Int) = 0) := by decide
  simp only [hall, h1, if_false]
  rw [orderByIdDesc_append_max _ _ h, applyLimit_nonneg _ _ (by decide)]
  rfl

/-- C8. `CreateTODO` succeeds on every store, and `ReadTODO` on the resulting
store, at any later clock reading, with `prevID` one above the new id and
`size == 1`, returns the sequence of exactly the entity `CreateTODO`
returned. -/
theorem create_then_read_roundtrip (db : DB) (subject description : String) (later : Nat) :
    ∃ todo, (TODOService.CreateTODO db subject description).2 = .ok todo ∧
      (TODOService.ReadTODO ((TODOService.CreateTODO db subject description).1.atClock later)
        (todo.id + 1) 1).2 = .ok [todo] := by
  refine ⟨_, by rw [createTODO_eq], ?_⟩
  have hrows : ((TODOService.CreateTODO db subject description).1.atClock later).rows =
      db.rows ++ [{ id := db.nextId, subject := subject, description := description,
                    createdAt := db.clock, updatedAt := db.clock }] := by
    rw [createTODO_eq]
    rfl
  exact readTODO_newest _ db.rows _ hrows (fun r hr => lt_nextId db r hr)

/-! ## The primary-key invariant is kept by every mutation -/

theorem uniqueIds_empty : DB.empty.uniqueIds := by
  decide

theorem uniqueIds_createTODO (db : DB) (subject description : String) (h : db.uniqueIds) :
    (TODOService.CreateTODO db subject description).1.uniqueIds := by
  rw [createTODO_eq]
  unfold DB.uniqueIds at h ⊢
  simp only [List.map_append, List.map_cons, List.map_nil]
  rw [List.nodup_append]
  refine ⟨h, List.nodup_singleton _, ?_⟩
  intro a ha hb
  rw [List.mem_singleton] at hb
  obtain ⟨r, hr, rfl⟩ := List.mem_map.mp ha
  exact absurd hb (ne_of_lt (lt_nextId db r hr))

theorem updateTODO_rows (db : DB) (id : Int) (subject description : String) :
    (TODOService.UpdateTODO db id subject description).1.rows =
      (execUpdate db subject description id).1.rows := by
  unfold TODOService.UpdateTODO execUpdate queryConfirm
  simp only
  split
  · rfl
  · generalize List.find? (fun r : Row => r.id == db.lastInsertRowid) _ = found
    cases found <;> rfl

theorem uniqueIds_updateTODO (db : DB) (id : Int) (subject description : String)
    (h : db.uniqueIds) :
    (TODOService.UpdateTODO db id subject description).1.uniqueIds := by
  have hmap : (db.rows.map (fun r =>
      if r.id = id then
        ({ r with subject := subject, description := description, updatedAt := db.clock } : Row)
      else r)).map Row.id = db.rows.map Row.id := by
    rw [List.map_map]
    apply List.map_congr_left
    intro r _
    simp only [Function.comp]
    split <;> rfl
  unfold DB.uniqueIds at h ⊢
  rw [updateTODO_rows]
  simp only [execUpdate]
  rw [hmap]
  exact h

theorem uniqueIds_deleteTODO (db : DB) (ids : List Int) (h : db.uniqueIds) :
    (TODOService.DeleteTODO db ids).1.uniqueIds := by
  by_cases hnil : ids = []
  · subst hnil; exact h
  · by_cases hmax : ids.length ≤ sqliteMaxVariableNumber
    · rw [deleteTODO_eq db ids hnil hmax]
      exact filter_ids_nodup _ _ h
    · rw [deleteTODO_too_many db ids (not_le.mp hmax)]
      exact h

theorem find_updated (rows : List Row) (id : Int) (subject description : String) (clock : Nat)
    (r : Row) (hr : r ∈ rows) (hid : r.id = id) (hu : (rows.map Row.id).Nodup) :
    (rows.map (fun r =>
      if r.id = id then
        ({ r with subject := subject, description := description, updatedAt := clock } : Row)
      else r)).find? (fun r => r.id == id) =
      some { r with subject := subject, description := description, updatedAt := clock } := by
  induction rows with
  | nil => cases hr
  | cons a as ih =>
    rw [List.map_cons, List.nodup_cons] at hu
    rcases List.mem_cons.mp hr with rfl | hmem
    · simp [hid]
    · have hne : a.id ≠ id := by
        intro hc
        apply hu.1
        rw [hc, ← hid]
        exact List.mem_map_of_mem Row.id hmem
      have hb : (a.id == id) = false := by simp [hne]
      simp only [List.map_cons, hne, if_false, List.find?_cons, hb]
      exact ih hmem hu.2

/-- The PUT of the scenario in the specification: when the row being updated
is the one the connection inserted last, `UpdateTODO` returns that row
refreshed. -/
theorem updateTODO_of_last_insert (db : DB) (id : Int) (subject description : String)
    (h : db.hasId id = true) (hu : db.uniqueIds) (hlast : db.lastInsertRowid = id) :
    ∃ r ∈ db.rows, r.id = id ∧
      (TODOService.UpdateTODO db id subject description).2 =
        .ok { id := id, subject := subject, description := description,
              createdAt := r.createdAt, updatedAt := db.clock } := by
  obtain ⟨r, hr, hid⟩ := (hasId_eq_true_iff db id).mp h
  refine ⟨r, hr, hid, ?_⟩
  rw [updateTODO_of_present db id subject description h, hlast]
  have hfind := find_updated db.rows id subject description db.clock r hr hid hu
  simp only [execUpdate, queryConfirm, hfind]

end GoStations
